import Mathlib

/-!
Shallow embedding of the account-plan synthesis pipeline of
`agent/research_agent.py` (class `ResearchAgent`), together with proofs of
the behavioural claims about it.

Python dynamic values are modelled by the inductive `PyVal`; dictionaries
are association lists with CPython insert semantics (updating an existing
key keeps its position); machine-level details that the pipeline never
observes (IEEE float formatting, Unicode whitespace beyond ASCII,
surrogate-pair combination in JSON string escapes) are noted at the
definition that abstracts them.
-/

set_option autoImplicit false

namespace ResearchAgent

/-- A Python runtime value, as far as the pipeline can observe one.
Floats are kept as a decimal mantissa/exponent pair (value `m * 10 ^ e`):
the pipeline only ever tests floats for truthiness (`m ≠ 0`), so IEEE
rounding and shortest-repr formatting are not modelled.  `nan` and `inf`
cover the `NaN` / `Infinity` / `-Infinity` constants that `json.loads`
accepts; both are truthy. -/
inductive PyVal where
  | none
  | bool (b : Bool)
  | int (n : Int)
  | float (m : Int) (e : Int)
  | nan
  | inf (neg : Bool)
  | str (s : String)
  | list (xs : List PyVal)
  | dict (kvs : List (String × PyVal))
  deriving Repr

/-- A Python `dict` with string keys, in insertion order. -/
abbrev PyDict := List (String × PyVal)

/-- Python `d.get(k)` / `d[k]`: the first entry with key `k` (keys are unique in
every dict the pipeline builds, so first-match and CPython lookup agree). -/
def dictGet? (d : PyDict) (k : String) : Option PyVal :=
  (d.find? (fun kv => kv.1 = k)).map (fun kv => kv.2)

/-- Python `d.get(k, default)`. -/
def dictGetD (d : PyDict) (k : String) (v : PyVal) : PyVal :=
  (dictGet? d k).getD v

/-- Python `d[k] = v`: CPython dict assignment — an existing key keeps its
position and gets the new value, a fresh key is appended. -/
def dictInsert (d : PyDict) (k : String) (v : PyVal) : PyDict :=
  if d.any (fun kv => kv.1 = k) then
    d.map (fun kv => if kv.1 = k then (k, v) else kv)
  else
    d ++ [(k, v)]

/-- Python truthiness (`bool(v)`). -/
def pyTruthy : PyVal → Bool
  | .none => false
  | .bool b => b
  | .int n => n != 0
  | .float m _ => m != 0
  | .nan => true
  | .inf _ => true
  | .str s => s != ""
  | .list xs => !xs.isEmpty
  | .dict kvs => !kvs.isEmpty

/-- Python `x or y` on values. -/
def pyOr (x y : PyVal) : PyVal :=
  if pyTruthy x then x else y

/-- Whitespace as Python's `str.strip()` sees it, restricted to the ASCII
range (space, tab, newline, carriage return, vertical tab, form feed);
the Unicode whitespace code points that Python additionally strips never
occur in the inputs the claims are settled on. -/
def pyWs (c : Char) : Bool :=
  c = ' ' || c = '\t' || c = '\n' || c = '\r' || c = Char.ofNat 11 || c = Char.ofNat 12

/-- Drop leading characters satisfying `pyWs` (left strip). -/
def lstripList (l : List Char) : List Char :=
  l.dropWhile pyWs

/-- Drop trailing characters satisfying `pyWs` (right strip). -/
def rstripList (l : List Char) : List Char :=
  (l.reverse.dropWhile pyWs).reverse

/-- Both-ends strip on character lists. -/
def stripList (l : List Char) : List Char :=
  rstripList (lstripList l)

/-- Python `s.strip()` with no arguments. -/
def pyStrip (s : String) : String :=
  String.mk (stripList s.data)

/-- Decimal rendering of the float shim; Python's shortest-round-trip
float repr is not modelled (the pipeline never reads a float's text). -/
def floatStr (m e : Int) : String :=
  toString m ++ "e" ++ toString e

mutual

/-- Python `repr(v)`.  String escaping inside the quoted literal is not
modelled (the pipeline never parses a repr back). -/
def pyRepr : PyVal → String
  | .none => "None"
  | .bool true => "True"
  | .bool false => "False"
  | .int n => toString n
  | .float m e => floatStr m e
  | .nan => "nan"
  | .inf true => "-inf"
  | .inf false => "inf"
  | .str s => "\x27" ++ s ++ "\x27"
  | .list xs => "[" ++ String.intercalate (", ") (pyReprList xs) ++ "]"
  | .dict kvs => "\x7b" ++ String.intercalate (", ") (pyReprPairs kvs) ++ "\x7d"

/-- Python `repr` of each element of a list. -/
def pyReprList : List PyVal → List String
  | [] => []
  | v :: vs => pyRepr v :: pyReprList vs

/-- Python `repr` of each `key: value` entry of a dict. -/
def pyReprPairs : List (String × PyVal) → List String
  | [] => []
  | (k, v) :: kvs => ("\x27" ++ k ++ "\x27: " ++ pyRepr v) :: pyReprPairs kvs

end

/-- Python `str(v)`: the identity on strings, `repr` on everything else
(which matches CPython for `None`, booleans, ints, floats, lists, dicts). -/
def pyStr : PyVal → String
  | .str s => s
  | v => pyRepr v

/-! ### `json.loads` (strict mode), as used by `_extract_json_from_text` -/

/-- The whitespace `json.loads` skips between tokens. -/
def jsonWsChar (c : Char) : Bool :=
  c = ' ' || c = '\t' || c = '\n' || c = '\r'

/-- Skip inter-token whitespace. -/
def skipWs (l : List Char) : List Char :=
  l.dropWhile jsonWsChar

/-- Value of a hexadecimal digit, by code point arithmetic. -/
def hexVal? (c : Char) : Option Nat :=
  let n := c.toNat
  if 48 ≤ n && n ≤ 57 then some (n - 48)
  else if 97 ≤ n && n ≤ 102 then some (n - 87)
  else if 65 ≤ n && n ≤ 70 then some (n - 55)
  else none

/-- The single-character JSON string escapes: the three self-escaping
punctuation characters, and the five control-character mnemonics by
their code points. -/
def escChar? (c : Char) : Option Char :=
  if c = '"' || c = '\\' || c = '/' then some c
  else if c = 'b' then some (Char.ofNat 8)
  else if c = 't' then some (Char.ofNat 9)
  else if c = 'n' then some (Char.ofNat 10)
  else if c = 'f' then some (Char.ofNat 12)
  else if c = 'r' then some (Char.ofNat 13)
  else none

/-- Body of a JSON string literal, positioned just after the opening
quote; returns the decoded characters and the remainder after the closing
quote.  Strict mode: unescaped control characters (below 0x20) and
unknown escapes are rejected.  `\uXXXX` becomes the corresponding code
point; combining a surrogate pair into one character (and CPython's
tolerance of lone surrogates) is not modelled — no claim touches those. -/
def parseStringBody : List Char → Option (List Char × List Char)
  | [] => Option.none
  | c :: rest =>
    if c = '"' then some ([], rest)
    else if c = '\\' then
      match rest with
      | [] => Option.none
      | e :: rest2 =>
        if e = 'u' then
          match rest2 with
          | h1 :: h2 :: h3 :: h4 :: rest3 =>
            match hexVal? h1, hexVal? h2, hexVal? h3, hexVal? h4 with
            | some a, some b, some c2, some d =>
              match parseStringBody rest3 with
              | some (cs, rem) => some (Char.ofNat (((a * 16 + b) * 16 + c2) * 16 + d) :: cs, rem)
              | Option.none => Option.none
            | _, _, _, _ => Option.none
          | _ => Option.none
        else
          match escChar? e with
          | some ec =>
            match parseStringBody rest2 with
            | some (cs, rem) => some (ec :: cs, rem)
            | Option.none => Option.none
          | Option.none => Option.none
    else if c.toNat < 32 then Option.none
    else
      match parseStringBody rest with
      | some (cs, rem) => some (c :: cs, rem)
      | Option.none => Option.none

/-- Numeric value of one decimal digit character. -/
def decDigitVal (c : Char) : Nat :=
  c.toNat - 48

/-- Digits to the natural number they denote. -/
def digitsToNat (ds : List Char) : Nat :=
  ds.foldl (fun n c => 10 * n + decDigitVal c) 0

/-- The JSON number token at the head of the input, matching CPython's
`NUMBER_RE` (`-?(0|[1-9]\d*)(\.\d+)?([eE][-+]?\d+)?`): the longest prefix
the regex accepts is consumed, rejection of what follows is left to the
surrounding parser (exactly as in the scanner).  An integer literal
yields a Python `int`; a fraction or exponent yields the float shim. -/
def parseNumber (l : List Char) : Option (PyVal × List Char) :=
  let signNeg : Bool := match l with | '-' :: _ => true | _ => false
  let l1 := match l with | '-' :: t => t | _ => l
  match l1 with
  | [] => Option.none
  | c :: t =>
    if c.isDigit then
      let intDs : List Char := if c = '0' then ['0'] else c :: t.takeWhile Char.isDigit
      let r1 : List Char := if c = '0' then t else t.dropWhile Char.isDigit
      let fracDs : List Char :=
        match r1 with
        | '.' :: u => u.takeWhile Char.isDigit
        | _ => []
      let hasFrac : Bool := !fracDs.isEmpty
      let r2 : List Char :=
        if hasFrac then
          match r1 with
          | _ :: u => u.dropWhile Char.isDigit
          | [] => r1
        else r1
      let expInfo : Option (Int × List Char) :=
        match r2 with
        | e :: u =>
          if e = 'e' || e = 'E' then
            let (eneg, u1) : Bool × List Char :=
              match u with
              | '+' :: u' => (false, u')
              | '-' :: u' => (true, u')
              | _ => (false, u)
            let eds := u1.takeWhile Char.isDigit
            if eds.isEmpty then Option.none
            else some (if eneg then -(Int.ofNat (digitsToNat eds)) else Int.ofNat (digitsToNat eds),
                       u1.dropWhile Char.isDigit)
          else Option.none
        | [] => Option.none
      match expInfo with
      | some (ev, r3) =>
        let mAbs := digitsToNat (intDs ++ fracDs)
        let m : Int := if signNeg then -(Int.ofNat mAbs) else Int.ofNat mAbs
        some (.float m (ev - Int.ofNat fracDs.length), r3)
      | Option.none =>
        if hasFrac then
          let mAbs := digitsToNat (intDs ++ fracDs)
          let m : Int := if signNeg then -(Int.ofNat mAbs) else Int.ofNat mAbs
          some (.float m (-(Int.ofNat fracDs.length)), r2)
        else
          let n : Int := if signNeg then -(Int.ofNat (digitsToNat intDs)) else Int.ofNat (digitsToNat intDs)
          some (.int n, r2)
    else Option.none

mutual

/-- One JSON value at the head of the input (leading whitespace already
skipped by the caller), fuel-bounded; `jsonLoads` supplies ample fuel. -/
def parseVal : Nat → List Char → Option (PyVal × List Char)
  | 0, _ => Option.none
  | fuel + 1, l =>
    match l with
    | [] => Option.none
    | '{' :: rest =>
      match skipWs rest with
      | '}' :: r2 => some (.dict [], r2)
      | r1 => parseObjMembers fuel r1 []
    | '[' :: rest =>
      match skipWs rest with
      | ']' :: r2 => some (.list [], r2)
      | r1 => parseArrItems fuel r1 []
    | '"' :: rest =>
      match parseStringBody rest with
      | some (cs, rem) => some (.str (String.mk cs), rem)
      | Option.none => Option.none
    | 't' :: _ =>
      if l.take 4 = ['t', 'r', 'u', 'e'] then some (.bool true, l.drop 4) else Option.none
    | 'f' :: _ =>
      if l.take 5 = ['f', 'a', 'l', 's', 'e'] then some (.bool false, l.drop 5) else Option.none
    | 'n' :: _ =>
      if l.take 4 = ['n', 'u', 'l', 'l'] then some (.none, l.drop 4) else Option.none
    | 'N' :: _ =>
      if l.take 3 = ['N', 'a', 'N'] then some (.nan, l.drop 3) else Option.none
    | 'I' :: _ =>
      if l.take 8 = ['I', 'n', 'f', 'i', 'n', 'i', 't', 'y'] then some (.inf false, l.drop 8)
      else Option.none
    | '-' :: 'I' :: _ =>
      if l.take 9 = ['-', 'I', 'n', 'f', 'i', 'n', 'i', 't', 'y'] then some (.inf true, l.drop 9)
      else Option.none
    | _ => parseNumber l

/-- Members of a JSON object, positioned at an expected key (whitespace
skipped); duplicate keys overwrite in place, as building a CPython dict
does.  A `}` here (after a comma) is a trailing comma and is rejected. -/
def parseObjMembers : Nat → List Char → PyDict → Option (PyVal × List Char)
  | 0, _, _ => Option.none
  | fuel + 1, l, acc =>
    match l with
    | '"' :: rest =>
      match parseStringBody rest with
      | Option.none => Option.none
      | some (kcs, r1) =>
        match skipWs r1 with
        | ':' :: r2 =>
          match parseVal fuel (skipWs r2) with
          | Option.none => Option.none
          | some (v, r3) =>
            match skipWs r3 with
            | ',' :: r4 => parseObjMembers fuel (skipWs r4) (dictInsert acc (String.mk kcs) v)
            | '}' :: r4 => some (.dict (dictInsert acc (String.mk kcs) v), r4)
            | _ => Option.none
        | _ => Option.none
    | _ => Option.none

/-- Items of a JSON array, positioned at an expected value (whitespace
skipped).  A `]` here (after a comma) is a trailing comma and is
rejected, because the value parse fails on it. -/
def parseArrItems : Nat → List Char → List PyVal → Option (PyVal × List Char)
  | 0, _, _ => Option.none
  | fuel + 1, l, acc =>
    match parseVal fuel l with
    | Option.none => Option.none
    | some (v, r1) =>
      match skipWs r1 with
      | ',' :: r2 => parseArrItems fuel (skipWs r2) (acc ++ [v])
      | ']' :: r2 => some (.list (acc ++ [v]), r2)
      | _ => Option.none

end

/-- Model of `json.loads(s)`: skip leading whitespace, parse one value, require
only whitespace to remain (CPython's "Extra data" check); `Option.none`
models the raised `JSONDecodeError`. -/
def jsonLoads (s : String) : Option PyVal :=
  match parseVal (2 * s.length + 8) (skipWs s.data) with
  | some (v, rest) => if (skipWs rest).isEmpty then some v else Option.none
  | Option.none => Option.none

/-! ### The two regular expressions of `_extract_json_from_text` -/

/-- Model of `re.search(r"(\x7b.*\x7d)", text, re.DOTALL)`: with a greedy `.*`
that (under DOTALL) matches anything, the match — when one exists — runs
from the first `\x7b` in the text to the last `\x7d`, and exists exactly
when that last `\x7d` lies after that first `\x7b`. -/
def jsonSpan? (text : String) : Option String :=
  let cs := text.data
  match cs.findIdx? (fun c => c = '{') with
  | Option.none => Option.none
  | some i =>
    match cs.reverse.findIdx? (fun c => c = '}') with
    | Option.none => Option.none
    | some jr =>
      let j := cs.length - 1 - jr
      if i < j then some (String.mk ((cs.drop i).take (j - i + 1))) else Option.none

/-- Fuel-bounded scan for `re.sub(r",\s*C", "C", ·)`: each step consumes
at least one character, so fuel `length + 1` (supplied by
`subCommaClose`) never runs out and the fuel-exhausted arm is
unreachable. -/
def subCommaCloseGo (close : Char) : Nat → List Char → List Char
  | 0, l => l
  | _ + 1, [] => []
  | fuel + 1, c :: rest =>
    if c = ',' then
      match rest.dropWhile pyWs with
      | d :: tail =>
        if d = close then close :: subCommaCloseGo close fuel tail
        else ',' :: subCommaCloseGo close fuel rest
      | [] => ',' :: subCommaCloseGo close fuel rest
    else c :: subCommaCloseGo close fuel rest

/-- Model of `re.sub(r",\s*C", "C", ·)` for a closing character `C` (`\x7d` or
`]`): replace every non-overlapping leftmost match of a comma, optional
whitespace, and `C` by `C` alone.  `\s` is modelled by `pyWs` (its ASCII
part; Unicode whitespace never occurs in the settled inputs). -/
def subCommaClose (close : Char) (l : List Char) : List Char :=
  subCommaCloseGo close (l.length + 1) l

/-- String-level wrapper for the comma-repair substitution. -/
def reSubCommaClose (close : Char) (s : String) : String :=
  String.mk (subCommaClose close s.data)

/-- Model of `ResearchAgent._extract_json_from_text` (lines 139–158): empty text
gives `\x7b\x7d`; otherwise take the greedy first-`\x7b`-to-last-`\x7d`
span, strict-parse it, on failure strip trailing commas before `\x7d` /
`]` and retry once, and on any remaining failure return `\x7b\x7d`. -/
def extract_json_from_text (text : String) : PyVal :=
  if text = "" then .dict []
  else
    match jsonSpan? text with
    | some json_str =>
      match jsonLoads json_str with
      | some v => v
      | Option.none =>
        let cleaned := reSubCommaClose '}' json_str
        let cleaned2 := reSubCommaClose ']' cleaned
        match jsonLoads cleaned2 with
        | some v => v
        | Option.none => .dict []
    | Option.none => .dict []

/-! ### Completion responses and `_call_gemini` (lines 95–137) -/

/-- A completion-service response as `_call_gemini` probes it:
`textAttr` / `outputAttr` model `hasattr(resp, "text") / resp.text` and
`hasattr(resp, "output") / resp.output` (absent attribute = `Option.none`),
and `strRepr` models `str(resp)` (total here; a raising `__str__` would be
caught by the code and yield the empty string, a case no claim needs). -/
structure Resp where
  textAttr : Option PyVal
  outputAttr : Option PyVal
  strRepr : String

/-- The scan over a `content` list: the first entry that is a dict with a
truthy `"text"` field wins; otherwise `text_output` keeps its initial
empty-string value. -/
def contentScan : List PyVal → PyVal
  | [] => .str ("")
  | c :: cs =>
    match c with
    | .dict d =>
      match dictGet? d ("text") with
      | some v => if pyTruthy v then v else contentScan cs
      | Option.none => contentScan cs
    | _ => contentScan cs

/-- Line 116, `out[0] if isinstance(out, (list, tuple)) and out else out`. -/
def outFirst : PyVal → PyVal
  | .list (x :: _) => x
  | v => v

/-- The `resp.output` branch of the extraction (inside its
`try`/`except`; nothing in this total model can raise there). -/
def outputBranchVal (out : PyVal) : PyVal :=
  match outFirst out with
  | .dict d =>
    match pyOr (dictGetD d ("content") .none) (dictGetD d ("contents") .none) with
    | .list (c :: cs) => contentScan (c :: cs)
    | .str s => .str s
    | _ => .str ("")
  | .str s => .str s
  | _ => .str ("")

/-- The `elif hasattr(resp, "output")` / `else: str(resp)` tail of the
shape probing. -/
def respOutputOrStr (resp : Resp) : PyVal :=
  match resp.outputAttr with
  | some out => outputBranchVal out
  | Option.none => .str resp.strRepr

/-- The value bound to `text_output` after the shape probing. -/
def respTextOutput (resp : Resp) : PyVal :=
  match resp.textAttr with
  | some t => if pyTruthy t then t else respOutputOrStr resp
  | Option.none => respOutputOrStr resp

/-- The text-extraction tail of `_call_gemini` (lines 109–137): the
debug-log line evaluates `len(text_output or "")` and the return line is
`(text_output or "").strip()`, both outside any `try`, so a truthy
non-string `text_output` raises a `TypeError`/`AttributeError` (modelled
as `.error`); a falsy one becomes the empty string. -/
def extractText (resp : Resp) : Except String String :=
  if pyTruthy (respTextOutput resp) then
    match respTextOutput resp with
    | .str s => .ok (pyStrip s)
    | _ => .error ("TypeError: text output is not a string")
  else .ok ("")

/-- The completion collaborator: the two call paths of the `genai`
client.  The fixed `model=self.text_model` argument is absorbed into the
collaborator, which receives only the prompt; a raised exception is
modelled as `.error` carrying the exception's message. -/
structure GenaiClient where
  generate_content : String → Except String Resp
  generate : String → Except String Resp

/-- Model of `ResearchAgent._call_gemini` (lines 95–137): primary call, fallback
call on a raise, and a single `RuntimeError` carrying both messages if
the fallback raises too; otherwise defensive text extraction. -/
def call_gemini (client : GenaiClient) (prompt : String) : Except String String :=
  match client.generate_content prompt with
  | .ok resp => extractText resp
  | .error e =>
    match client.generate prompt with
    | .ok resp => extractText resp
    | .error e2 => .error ("Gemini invocation failed: " ++ e ++ " / " ++ e2)

/-! ### The account-plan template and the two prompts -/

/-- Modelled from the spec: `agent/account_plan_template.py` (the
`ACCOUNT_PLAN_TEMPLATE` mapping whose `.keys()` the agent iterates) is
not among the provided sources.  Per the spec's data model the template
is the process-wide constant ordered set of required keys
`company_overview, key_findings, pain_points, opportunities, competitors,
recommended_strategy`, which is also the exact key list named in the
synthesis prompt and in `main.py`'s section menu. -/
def templateKeys : List String :=
  ["company_overview", "key_findings", "pain_points", "opportunities",
   ("competitors"), "recommended_strategy"]

/-- The synthesis prompt of `generate_account_plan` (lines 201–216). -/
def synthPrompt (research_data company_name : String) : String :=
  ("\nYou are an expert enterprise sales analyst. Parse the following research text and produce a JSON object\nwith these keys (exact): company_overview, key_findings, pain_points, opportunities, competitors, recommended_strategy\n\nFor EACH key produce a detailed, multi-paragraph, well-written section (aim for ~150-400 words per section).\nUse evidence from the research. Where helpful, include brief inline citations in parentheses (e.g., \x27According to [source]...\x27).\n\nImportant:\n- Output ONLY valid JSON (no explanatory text). Each value must be a plain string (you may include newlines).\n- Keep JSON parsable (avoid trailing commas).\n\nCompany: ")
    ++ company_name ++ "\n\nResearch:\n" ++ research_data ++ "\n"

/-- The expansion prompt of `_ensure_long_sections` (lines 173–183). -/
def expandPrompt (company_name keys_list research_data : String) : String :=
  ("\nYou are an expert enterprise sales analyst. Expand the following sections into much more detailed content.\nCompany: ")
    ++ company_name ++ "\n\nSections to expand: " ++ keys_list
    ++ "\n\nFor each requested section, produce a long, well-structured plain-text value (not bullet fragments) of about 150-400 words each, using the research provided. Output ONLY valid JSON with keys exactly matching the section names and values as strings.\n\nResearch context (use for evidence):\n"
    ++ research_data ++ "\n"

/-! ### `_ensure_long_sections` (lines 160–192) -/

/-- Python `str(plan.get(k, "") or "")`, the expression the expansion round uses
both for the length threshold and for the merge comparison. -/
def curStr (plan : PyDict) (k : String) : String :=
  pyStr (pyOr (dictGetD plan k (.str (""))) (.str ("")))

/-- The `keys_to_expand` list, with `MIN_CHARS = 300`. -/
def keysToExpand (plan : PyDict) : List String :=
  templateKeys.filter (fun k => (curStr plan k).length < 300)

/-- Lookup `expanded_obj.get(k)`.  `extract_json_from_text` only ever produces a
dict, so the non-dict arm (where Python's `.get` would raise) is
unreachable in the pipeline. -/
def pvGet? (v : PyVal) (k : String) : Option PyVal :=
  match v with
  | .dict d => dictGet? d k
  | _ => Option.none

/-- One iteration of the expansion merge loop (lines 188–191): the plan's
value is replaced only by a non-empty string candidate whose stripped
length strictly exceeds the current value's length. -/
def mergeStep (expanded_obj : PyVal) (plan : PyDict) (k : String) : PyDict :=
  match pvGet? expanded_obj k with
  | some (.str v) =>
    if v != "" && (curStr plan k).length < (pyStrip v).length then
      dictInsert plan k (.str (pyStrip v))
    else plan
  | _ => plan

/-- The expansion prompt actually issued, with `keys_list` joined by
`", "`. -/
def expandPromptOf (plan : PyDict) (research_data company_name : String) : String :=
  expandPrompt company_name (String.intercalate (", ") (keysToExpand plan)) research_data

/-- Model of `ResearchAgent._ensure_long_sections` (lines 160–192).  Note the body
has no `try`/`except` of its own: a raise out of `_call_gemini`
propagates (`.error`), while an unparsable expansion response only makes
`extract_json_from_text` return the empty dict and the merge a no-op. -/
def ensure_long_sections (client : GenaiClient) (plan : PyDict)
    (research_data company_name : String) : Except String PyDict :=
  if (keysToExpand plan).isEmpty then .ok plan
  else
    match call_gemini client (expandPromptOf plan research_data company_name) with
    | .error e => .error e
    | .ok expanded_text =>
      .ok ((keysToExpand plan).foldl (mergeStep (extract_json_from_text expanded_text)) plan)

/-! ### `generate_account_plan` (lines 194–247) -/

/-- The degenerate fallback object (lines 225–232): raw stripped model
text as `company_overview`, all other required keys empty. -/
def degenerateDict (text_output : String) : PyDict :=
  [("company_overview", .str (pyStrip text_output)),
   ("key_findings", .str ("")),
   ("pain_points", .str ("")),
   ("opportunities", .str ("")),
   ("competitors", .str ("")),
   ("recommended_strategy", .str (""))]

/-- Line 237: `str(parsed_obj.get(k, "")).strip() if parsed_obj.get(k,
"") is not None else ""`. -/
def enforceVal (parsed : PyDict) (k : String) : String :=
  match dictGetD parsed k (.str ("")) with
  | .none => ""
  | v => pyStrip (pyStr v)

/-- The schema-enforcement loop (lines 235–237) building `plan = {}` and
assigning every template key in order. -/
def planInit (parsed : PyDict) : PyDict :=
  templateKeys.foldl (fun p k => dictInsert p k (.str (enforceVal parsed k))) []

/-- Line 244: `f"{min(95, 20 + 10 * len(plan['sources']))}%"`. -/
def confidenceEstimate (n : Nat) : String :=
  toString (min 95 (20 + 10 * n)) ++ "%"

/-- The `parsed_obj` of `generate_account_plan` after the fallback check
(lines 220–232): the extraction result itself when it is a dict with at
least one truthy value, the degenerate fallback otherwise (the
`isinstance(parsed_obj, dict)` half of the guard is the non-dict match
arm). -/
def parsedOf (text_output : String) : PyDict :=
  match extract_json_from_text text_output with
  | .dict d => if d.any (fun kv => pyTruthy kv.2) then d else degenerateDict text_output
  | _ => degenerateDict text_output

/-- Model of `ResearchAgent.generate_account_plan` (lines 194–247).  The
`isinstance(parsed_obj, dict)` guard is modelled by matching on the
extraction result; `plan["sources"] = sources or []` stores a list of
the same length as `sources` either way, so the confidence estimate uses
`sources.length`. -/
def generate_account_plan (client : GenaiClient) (research_data : String)
    (sources : List String) (company_name : String) : Except String PyDict :=
  match call_gemini client (synthPrompt research_data company_name) with
  | .error e => .error e
  | .ok text_output =>
    match ensure_long_sections client (planInit (parsedOf text_output)) research_data company_name with
    | .error e => .error e
    | .ok plan2 =>
      .ok (dictInsert (dictInsert plan2 ("sources") (.list (sources.map PyVal.str)))
        ("confidence_estimate") (.str (confidenceEstimate sources.length)))

/-! ### `search_company` (lines 33–93) -/

mutual

/-- Structural equality on Python values, used for the source dedupe's
`s not in seen`.  Python's cross-type numeric equality (`1 == 1.0`) and
`nan != nan` are not modelled: the deduped values are URL strings in
every run the claims touch. -/
def pyBeq : PyVal → PyVal → Bool
  | .none, .none => true
  | .bool a, .bool b => a == b
  | .int a, .int b => a == b
  | .float m1 e1, .float m2 e2 => m1 == m2 && e1 == e2
  | .nan, .nan => true
  | .inf a, .inf b => a == b
  | .str a, .str b => a == b
  | .list xs, .list ys => pyBeqList xs ys
  | .dict a, .dict b => pyBeqPairs a b
  | _, _ => false

/-- Elementwise equality of value lists. -/
def pyBeqList : List PyVal → List PyVal → Bool
  | [], [] => true
  | x :: xs, y :: ys => pyBeq x y && pyBeqList xs ys
  | _, _ => false

/-- Elementwise equality of dict entry lists. -/
def pyBeqPairs : List (String × PyVal) → List (String × PyVal) → Bool
  | [], [] => true
  | (k1, v1) :: xs, (k2, v2) :: ys => k1 == k2 && pyBeq v1 v2 && pyBeqPairs xs ys
  | _, _ => false

end

/-- The fixed search query (line 38). -/
def tavilyQueryFor (company_name : String) : String :=
  company_name ++ " company overview business model latest news competitors funding"

/-- Python `list(v)` for the shapes that are iterable; `Option.none` is
the `TypeError` the surrounding `try`/`except` catches. -/
def pyIter? : PyVal → Option (List PyVal)
  | .list xs => some xs
  | .str s => some (s.data.map (fun c => PyVal.str (String.mk [c])))
  | .dict d => some (d.map (fun kv => PyVal.str kv.1))
  | _ => Option.none

/-- The result-shape normalisation (lines 51–60):
`raw.get("results") or raw.get("hits") or raw.get("items") or []` for a
dict, the list itself for a list, `list(raw)` for anything else with
`[]` on a raised `TypeError`.  Note the dict arm can produce a non-list
truthy value, which is why slicing below can fail. -/
def tavilyResultsVal : PyVal → PyVal
  | .dict d =>
    pyOr (pyOr (pyOr (dictGetD d ("results") .none) (dictGetD d ("hits") .none))
      (dictGetD d ("items") .none)) (.list [])
  | .list xs => .list xs
  | v =>
    match pyIter? v with
    | some xs => .list xs
    | Option.none => .list []

/-- Slicing `results[:top_k]` (line 62): slicing works on lists and strings and
raises a `TypeError` (uncaught in the source) on anything else. -/
def pySlice (v : PyVal) (n : Nat) : Except String (List PyVal) :=
  match v with
  | .list xs => .ok (xs.take n)
  | .str s => .ok ((s.data.take n).map (fun c => PyVal.str (String.mk [c])))
  | _ => .error ("TypeError: unsliceable results value")

/-- First field of `ks` that is present in `d` with a truthy value
(lines 66–69 / 77–79: `k in r and r[k]`). -/
def firstField (d : PyDict) : List String → Option PyVal
  | [] => Option.none
  | k :: ks =>
    match dictGet? d k with
    | some v => if pyTruthy v then some v else firstField d ks
    | Option.none => firstField d ks

/-- The body-text choice for one result (lines 65–71). -/
def contentOf (r : PyVal) : Option PyVal :=
  let c : Option PyVal :=
    match r with
    | .dict d => firstField d ["content", "snippet", "text", "summary"]
    | _ => Option.none
  match c with
  | some v => some v
  | Option.none =>
    match r with
    | .str s => some (.str s)
    | _ => Option.none

/-- The URL choice for one result (lines 75–80). -/
def urlOf (r : PyVal) : Option PyVal :=
  match r with
  | .dict d => firstField d ["url", "link", "source", "href"]
  | _ => Option.none

/-- The accumulation loop over the sliced results (lines 62–82).
`combined_text += content + "\n\n"` raises a `TypeError` (uncaught) when
the chosen content is a truthy non-string. -/
def searchLoop : List PyVal → String → List PyVal → Except String (String × List PyVal)
  | [], text, srcs => .ok (text, srcs)
  | r :: rest, text, srcs =>
    if !pyTruthy r then searchLoop rest text srcs
    else
      let step : Except String String :=
        match contentOf r with
        | some v =>
          if pyTruthy v then
            match v with
            | .str s => .ok (text ++ s ++ "\n\n")
            | _ => .error ("TypeError: can only concatenate str")
          else .ok text
        | Option.none => .ok text
      match step with
      | .error e => .error e
      | .ok text2 =>
        match urlOf r with
        | some u => searchLoop rest text2 (srcs ++ [u])
        | Option.none => searchLoop rest text2 srcs

/-- The first-seen-order dedupe of sources (lines 85–90). -/
def dedupeGo : List PyVal → List PyVal → List PyVal
  | [], _ => []
  | s :: rest, seen =>
    if seen.any (fun t => pyBeq s t) then dedupeGo rest seen
    else s :: dedupeGo rest (s :: seen)

/-- Model of `ResearchAgent.search_company` (lines 33–93): the Tavily collaborator
is a function from the query and limit to a raised exception or a raw
result value (the fixed `include_raw_content=True` argument is absorbed
into it); a raise returns the empty evidence bundle. -/
def search_company (tavily : String → Nat → Except String PyVal)
    (company_name : String) (top_k : Nat) : Except String (String × List PyVal) :=
  match tavily (tavilyQueryFor company_name) top_k with
  | .error _ => .ok ("", [])
  | .ok raw =>
    match pySlice (tavilyResultsVal raw) top_k with
    | .error e => .error e
    | .ok sliced =>
      match searchLoop sliced ("") [] with
      | .error e => .error e
      | .ok (combined_text, srcs) => .ok (pyStrip combined_text, dedupeGo srcs [])

/-! ### Derived descriptions used by the claim statements -/

/-- Whether the synthesis check `not isinstance(parsed_obj, dict) or not
any(parsed_obj.values())` fires, i.e. the parsed object is empty, not a
mapping, or has only falsy values. -/
def falsyParse : PyVal → Bool
  | .dict d => !(d.any (fun kv => pyTruthy kv.2))
  | _ => true

/-- The fully degenerate account plan: the result of the pipeline when
both the synthesis and the expansion rounds yield no usable structured
data from model text `t`. -/
def degenerateFinal (t : String) (srcs : List String) : PyDict :=
  [("company_overview", .str (pyStrip t)),
   ("key_findings", .str ("")),
   ("pain_points", .str ("")),
   ("opportunities", .str ("")),
   ("competitors", .str ("")),
   ("recommended_strategy", .str ("")),
   ("sources", .list (srcs.map PyVal.str)),
   ("confidence_estimate", .str (confidenceEstimate srcs.length))]

/-- The numeric confidence before stringification. -/
def confidenceNum (n : Nat) : Nat :=
  min 95 (20 + 10 * n)

/-- Whether the `.text` attribute probe `hasattr(resp, "text") and
resp.text` succeeds. -/
def txtTruthy (resp : Resp) : Bool :=
  match resp.textAttr with
  | some t => pyTruthy t
  | Option.none => false

/-- Whether a value is a Python dict. -/
def isDictV : PyVal → Bool
  | .dict _ => true
  | _ => false

/-- Whether a value is a Python string. -/
def isStrV : PyVal → Bool
  | .str _ => true
  | _ => false

/-! ### Concrete collaborators used by witnesses and counterexamples -/

/-- A response carrying plain text `s` in its `.text` attribute. -/
def respOf (s : String) : Resp :=
  ⟨some (PyVal.str s), Option.none, ""⟩

/-- A completion client whose both paths succeed with the unparsable
plain text `hi`. -/
def clientPlain : GenaiClient :=
  ⟨fun _ => .ok (respOf ("hi")), fun _ => .ok (respOf ("hi"))⟩

/-- A completion client whose both paths raise. -/
def clientRaise : GenaiClient :=
  ⟨fun _ => .error ("e1"), fun _ => .error ("e2")⟩

/-- An all-empty six-section plan (every required key present, empty). -/
def planEmpty : PyDict :=
  [("company_overview", .str ("")),
   ("key_findings", .str ("")),
   ("pain_points", .str ("")),
   ("opportunities", .str ("")),
   ("competitors", .str ("")),
   ("recommended_strategy", .str (""))]

end ResearchAgent

namespace ResearchAgent

/-! ### Helper lemmas: stripping -/

theorem dropWhile_dropWhile (p : Char → Bool) (l : List Char) :
    List.dropWhile p (List.dropWhile p l) = List.dropWhile p l := by
  induction l with
  | nil => rfl
  | cons x t ih =>
    by_cases hx : p x
    · rw [List.dropWhile_cons_of_pos hx]
      exact ih
    · rw [List.dropWhile_cons_of_neg hx, List.dropWhile_cons_of_neg hx]

theorem lstripList_idem (l : List Char) : lstripList (lstripList l) = lstripList l := by
  unfold lstripList
  exact dropWhile_dropWhile pyWs l

theorem rstripList_idem (l : List Char) : rstripList (rstripList l) = rstripList l := by
  unfold rstripList
  rw [List.reverse_reverse, dropWhile_dropWhile]

theorem dropWhile_eq_self_head (p : Char → Bool) (x : Char) (t : List Char)
    (h : List.dropWhile p (x :: t) = x :: t) : p x = false := by
  by_cases hx : p x
  · exfalso
    rw [List.dropWhile_cons_of_pos hx] at h
    have hlen : (List.dropWhile p t).length ≤ t.length :=
      (List.dropWhile_sublist p).length_le
    have := congrArg List.length h
    simp only [List.length_cons] at this
    omega
  · exact Bool.eq_false_iff.mpr hx

theorem rstripList_prefix (l : List Char) : rstripList l <+: l := by
  unfold rstripList
  have h : l.reverse.dropWhile pyWs <:+ l.reverse := List.dropWhile_suffix pyWs
  have := List.reverse_prefix.mpr h
  rwa [List.reverse_reverse] at this

theorem lstrip_rstrip_of_lstripped (m : List Char)
    (hm : lstripList m = m) : lstripList (rstripList m) = rstripList m := by
  rcases hr : rstripList m with _ | ⟨x, t⟩
  · rfl
  · have hpre : rstripList m <+: m := rstripList_prefix m
    rw [hr] at hpre
    rcases hpre with ⟨u, hu⟩
    have hxm : m = x :: (t ++ u) := by
      rw [← hu]
      simp
    have hx : pyWs x = false := by
      apply dropWhile_eq_self_head pyWs x (t ++ u)
      rw [← hxm]
      exact hm
    unfold lstripList
    rw [List.dropWhile_cons_of_neg (by simp [hx])]

theorem stripList_idem (l : List Char) : stripList (stripList l) = stripList l := by
  unfold stripList
  rw [lstrip_rstrip_of_lstripped (lstripList l) (lstripList_idem l), rstripList_idem]

theorem pyStrip_idem (s : String) : pyStrip (pyStrip s) = pyStrip s := by
  unfold pyStrip
  rw [stripList_idem]

theorem pyStrip_empty : pyStrip ("") = "" := rfl

/-! ### Helper lemmas: dict operations -/

theorem any_key_iff (d : PyDict) (k : String) :
    d.any (fun kv => kv.1 = k) = true ↔ k ∈ d.map Prod.fst := by
  rw [List.any_eq_true]
  constructor
  · rintro ⟨kv, hmem, hk⟩
    have : kv.1 = k := by simpa using hk
    exact this ▸ List.mem_map_of_mem Prod.fst hmem
  · intro hk
    rcases List.mem_map.mp hk with ⟨kv, hmem, hfst⟩
    exact ⟨kv, hmem, by simp [hfst]⟩

theorem find?_keyrep_self (d : PyDict) (k : String) (v : PyVal)
    (h : d.any (fun kv => kv.1 = k) = true) :
    (d.map (fun kv => if kv.1 = k then (k, v) else kv)).find? (fun kv => kv.1 = k)
      = some (k, v) := by
  induction d with
  | nil => simp at h
  | cons kv t ih =>
    by_cases hk : kv.1 = k
    · simp [hk, List.find?_cons]
    · simp only [List.any_cons, Bool.or_eq_true, decide_eq_true_eq] at h
      rcases h with h | h
      · exact absurd h hk
      · simp only [List.map_cons, if_neg hk, List.find?_cons, decide_eq_false hk]
        exact ih h

theorem find?_keyrep_ne (d : PyDict) (k : String) (v : PyVal) (k' : String) (hne : k' ≠ k) :
    (d.map (fun kv => if kv.1 = k then (k, v) else kv)).find? (fun kv => kv.1 = k')
      = d.find? (fun kv => kv.1 = k') := by
  induction d with
  | nil => rfl
  | cons kv t ih =>
    by_cases hk : kv.1 = k
    · have h1 : ¬ (k = k') := fun h => hne h.symm
      have h2 : ¬ (kv.1 = k') := by
        rw [hk]
        exact fun h => hne h.symm
      simp only [List.map_cons, if_pos hk, List.find?_cons, decide_eq_false h1,
        decide_eq_false h2]
      exact ih
    · simp only [List.map_cons, if_neg hk, List.find?_cons]
      by_cases h2 : kv.1 = k'
      · simp only [decide_eq_true h2]
      · simp only [decide_eq_false h2]
        exact ih

theorem find?_key_none_of_any_false (d : PyDict) (k : String)
    (h : d.any (fun kv => kv.1 = k) = false) :
    d.find? (fun kv => kv.1 = k) = Option.none := by
  induction d with
  | nil => rfl
  | cons kv t ih =>
    simp only [List.any_cons, Bool.or_eq_false_iff] at h
    simp only [List.find?_cons, h.1]
    exact ih h.2

theorem dictGet?_insert_self (d : PyDict) (k : String) (v : PyVal) :
    dictGet? (dictInsert d k v) k = some v := by
  unfold dictInsert dictGet?
  by_cases h : d.any (fun kv => kv.1 = k) = true
  · rw [if_pos h, find?_keyrep_self d k v h]
    rfl
  · rw [if_neg h]
    rw [List.find?_append, find?_key_none_of_any_false d k (Bool.eq_false_iff.mpr h)]
    simp [List.find?_cons]

theorem dictGet?_insert_ne (d : PyDict) (k : String) (v : PyVal) (k' : String)
    (hne : k' ≠ k) : dictGet? (dictInsert d k v) k' = dictGet? d k' := by
  unfold dictInsert dictGet?
  by_cases h : d.any (fun kv => kv.1 = k) = true
  · rw [if_pos h, find?_keyrep_ne d k v k' hne]
  · rw [if_neg h, List.find?_append]
    have hkk : ¬ (k = k') := fun hh => hne hh.symm
    have hlast : List.find? (fun kv => kv.1 = k') [(k, v)] = Option.none := by
      simp only [List.find?_cons, decide_eq_false hkk]
      rfl
    rw [hlast]
    simp

theorem dictInsert_keys_mem (d : PyDict) (k : String) (v : PyVal)
    (h : k ∈ d.map Prod.fst) : (dictInsert d k v).map Prod.fst = d.map Prod.fst := by
  unfold dictInsert
  rw [if_pos ((any_key_iff d k).mpr h), List.map_map]
  apply List.map_congr_left
  intro kv _
  by_cases hk : kv.1 = k
  · simp [hk]
  · simp [hk]

theorem dictInsert_keys_new (d : PyDict) (k : String) (v : PyVal)
    (h : ¬ k ∈ d.map Prod.fst) :
    (dictInsert d k v).map Prod.fst = d.map Prod.fst ++ [k] := by
  unfold dictInsert
  have : ¬ d.any (fun kv => kv.1 = k) = true := fun ha => h ((any_key_iff d k).mp ha)
  rw [if_neg this]
  simp

/-! ### Helper lemmas: the expansion merge -/

theorem curStr_of_get_str (plan : PyDict) (k : String) (s : String)
    (h : dictGet? plan k = some (.str s)) : curStr plan k = s := by
  unfold curStr dictGetD pyOr
  rw [h]
  simp only [Option.getD_some]
  by_cases hs : s = ""
  · subst hs
    rfl
  · rw [if_pos (show pyTruthy (PyVal.str s) = true by simp [pyTruthy, hs])]
    rfl

theorem mergeStep_eq (e : PyVal) (plan : PyDict) (k0 : String) :
    mergeStep e plan k0 = plan ∨
    ∃ v, pvGet? e k0 = some (.str v) ∧ v ≠ "" ∧
      (curStr plan k0).length < (pyStrip v).length ∧
      mergeStep e plan k0 = dictInsert plan k0 (.str (pyStrip v)) := by
  unfold mergeStep
  rcases hp : pvGet? e k0 with _ | v
  · exact Or.inl rfl
  · cases v with
    | str v =>
      by_cases hc : (v != "" && decide ((curStr plan k0).length < (pyStrip v).length)) = true
      · right
        rw [Bool.and_eq_true, bne_iff_ne, decide_eq_true_eq] at hc
        exact ⟨v, rfl, hc.1, hc.2, if_pos (by simp [hc.1, hc.2])⟩
      · exact Or.inl (if_neg hc)
    | none => exact Or.inl rfl
    | bool b => exact Or.inl rfl
    | int n => exact Or.inl rfl
    | float m e2 => exact Or.inl rfl
    | nan => exact Or.inl rfl
    | inf b => exact Or.inl rfl
    | list xs => exact Or.inl rfl
    | dict d => exact Or.inl rfl

theorem mergeStep_at (e : PyVal) (plan : PyDict) (k0 k : String) (s : String)
    (h : dictGet? plan k = some (.str s)) :
    ∃ s1, dictGet? (mergeStep e plan k0) k = some (.str s1) ∧ s.length ≤ s1.length ∧
      (s1 = s ∨ ∃ v, pvGet? e k = some (.str v) ∧ v ≠ "" ∧
        s.length < (pyStrip v).length ∧ s1 = pyStrip v) := by
  rcases mergeStep_eq e plan k0 with heq | ⟨v, hv, hne, hlt, heq⟩
  · refine ⟨s, ?_, le_refl _, Or.inl rfl⟩
    rw [heq]
    exact h
  · by_cases hk : k = k0
    · subst hk
      rw [curStr_of_get_str plan k s h] at hlt
      refine ⟨pyStrip v, ?_, le_of_lt hlt, Or.inr ⟨v, hv, hne, hlt, rfl⟩⟩
      rw [heq]
      exact dictGet?_insert_self plan k (.str (pyStrip v))
    · refine ⟨s, ?_, le_refl _, Or.inl rfl⟩
      rw [heq, dictGet?_insert_ne plan k0 (.str (pyStrip v)) k hk]
      exact h

theorem mergeFold_at (e : PyVal) (ks : List String) :
    ∀ (plan : PyDict) (k : String) (s : String), dictGet? plan k = some (.str s) →
    ∃ s', dictGet? (ks.foldl (mergeStep e) plan) k = some (.str s') ∧
      s.length ≤ s'.length ∧
      (s' = s ∨ ∃ v, pvGet? e k = some (.str v) ∧ v ≠ "" ∧
        s.length < (pyStrip v).length ∧ s' = pyStrip v) := by
  induction ks with
  | nil =>
    intro plan k s h
    exact ⟨s, h, le_refl _, Or.inl rfl⟩
  | cons k0 ks ih =>
    intro plan k s h
    obtain ⟨s1, h1, hle1, hd1⟩ := mergeStep_at e plan k0 k s h
    obtain ⟨s', h', hle', hd'⟩ := ih (mergeStep e plan k0) k s1 h1
    refine ⟨s', h', le_trans hle1 hle', ?_⟩
    rcases hd' with rfl | ⟨v, hv, hne, hlt, rfl⟩
    · rcases hd1 with rfl | ⟨v, hv, hne, hlt, rfl⟩
      · exact Or.inl rfl
      · exact Or.inr ⟨v, hv, hne, hlt, rfl⟩
    · exact Or.inr ⟨v, hv, hne, lt_of_le_of_lt hle1 hlt, rfl⟩

theorem mergeStep_keys (e : PyVal) (plan : PyDict) (k0 : String)
    (h : k0 ∈ plan.map Prod.fst) :
    (mergeStep e plan k0).map Prod.fst = plan.map Prod.fst := by
  rcases mergeStep_eq e plan k0 with heq | ⟨v, _, _, _, heq⟩
  · rw [heq]
  · rw [heq, dictInsert_keys_mem plan k0 (.str (pyStrip v)) h]

theorem mergeFold_keys (e : PyVal) (ks : List String) :
    ∀ (plan : PyDict), (∀ k ∈ ks, k ∈ plan.map Prod.fst) →
    (ks.foldl (mergeStep e) plan).map Prod.fst = plan.map Prod.fst := by
  induction ks with
  | nil =>
    intro plan _
    rfl
  | cons k0 ks ih =>
    intro plan h
    have hk0 : k0 ∈ plan.map Prod.fst := h k0 (List.mem_cons_self k0 ks)
    have hstep := mergeStep_keys e plan k0 hk0
    rw [List.foldl_cons, ih (mergeStep e plan k0) (fun k hk => by
      rw [hstep]
      exact h k (List.mem_cons_of_mem k0 hk))]
    exact hstep

theorem mergeStep_falsy (e : PyVal) (plan : PyDict) (k0 : String)
    (h : falsyParse e = true) : mergeStep e plan k0 = plan := by
  rcases mergeStep_eq e plan k0 with heq | ⟨v, hv, hne, _, _⟩
  · exact heq
  · exfalso
    cases e with
    | dict d =>
      unfold falsyParse at h
      rw [Bool.not_eq_true'] at h
      unfold pvGet? dictGet? at hv
      rcases Option.map_eq_some'.mp hv with ⟨ent, hfind, hent⟩
      have hmem := List.mem_of_find?_eq_some hfind
      have hfalse := (List.any_eq_false.mp h) ent hmem
      rw [hent] at hfalse
      simp [pyTruthy] at hfalse
      exact hne hfalse
    | none => simp [pvGet?] at hv
    | bool b => simp [pvGet?] at hv
    | int n => simp [pvGet?] at hv
    | float m e2 => simp [pvGet?] at hv
    | nan => simp [pvGet?] at hv
    | inf b => simp [pvGet?] at hv
    | str s => simp [pvGet?] at hv
    | list xs => simp [pvGet?] at hv

theorem mergeFold_falsy (e : PyVal) (ks : List String) (plan : PyDict)
    (h : falsyParse e = true) : ks.foldl (mergeStep e) plan = plan := by
  induction ks generalizing plan with
  | nil => rfl
  | cons k0 ks ih =>
    rw [List.foldl_cons, mergeStep_falsy e plan k0 h]
    exact ih plan

/-! ### Helper lemmas: inversion of the pipeline stages -/

theorem ensure_ok_cases (client : GenaiClient) (plan : PyDict) (rd cn : String)
    (q : PyDict) (h : ensure_long_sections client plan rd cn = .ok q) :
    q = plan ∨ ∃ t, call_gemini client (expandPromptOf plan rd cn) = .ok t ∧
      q = (keysToExpand plan).foldl (mergeStep (extract_json_from_text t)) plan := by
  unfold ensure_long_sections at h
  by_cases he : (keysToExpand plan).isEmpty = true
  · rw [if_pos he] at h
    exact Or.inl (Except.ok.inj h).symm
  · rw [if_neg he] at h
    rcases hc : call_gemini client (expandPromptOf plan rd cn) with e | t
    · rw [hc] at h
      exact absurd h (by simp)
    · rw [hc] at h
      exact Or.inr ⟨t, rfl, (Except.ok.inj h).symm⟩

theorem ensure_error_of_call_error (client : GenaiClient) (plan : PyDict) (rd cn : String)
    (e : String) (hne : ¬ (keysToExpand plan).isEmpty = true)
    (hc : call_gemini client (expandPromptOf plan rd cn) = .error e) :
    ensure_long_sections client plan rd cn = .error e := by
  unfold ensure_long_sections
  rw [if_neg hne, hc]

theorem gap_ok_cases (client : GenaiClient) (rd : String) (srcs : List String)
    (cn : String) (p : PyDict) (h : generate_account_plan client rd srcs cn = .ok p) :
    ∃ t plan2, call_gemini client (synthPrompt rd cn) = .ok t ∧
      ensure_long_sections client (planInit (parsedOf t)) rd cn = .ok plan2 ∧
      p = dictInsert (dictInsert plan2 ("sources") (.list (srcs.map PyVal.str)))
        ("confidence_estimate") (.str (confidenceEstimate srcs.length)) := by
  unfold generate_account_plan at h
  rcases hc : call_gemini client (synthPrompt rd cn) with e | t
  · rw [hc] at h
    exact absurd h (by simp)
  · rw [hc] at h
    have h2 : (match ensure_long_sections client (planInit (parsedOf t)) rd cn with
      | Except.error e => (Except.error e : Except String PyDict)
      | Except.ok plan2 =>
        Except.ok (dictInsert (dictInsert plan2 ("sources") (.list (srcs.map PyVal.str)))
          ("confidence_estimate") (.str (confidenceEstimate srcs.length)))) = Except.ok p := h
    rcases he : ensure_long_sections client (planInit (parsedOf t)) rd cn with e | plan2
    · rw [he] at h2
      exact absurd h2 (by simp)
    · rw [he] at h2
      exact ⟨t, plan2, rfl, he, (Except.ok.inj h2).symm⟩

/-! ### Helper lemmas: the schema-enforcement stage -/

theorem planInit_keys (parsed : PyDict) : (planInit parsed).map Prod.fst = templateKeys := rfl

set_option maxHeartbeats 1000000 in
theorem planInit_get (parsed : PyDict) (k : String) (hk : k ∈ templateKeys) :
    dictGet? (planInit parsed) k = some (.str (enforceVal parsed k)) := by
  fin_cases hk <;> rfl

theorem enforceVal_stripped (parsed : PyDict) (k : String) :
    pyStrip (enforceVal parsed k) = enforceVal parsed k := by
  unfold enforceVal
  cases dictGetD parsed k (.str ("")) <;> first | rfl | exact pyStrip_idem _

theorem parsedOf_falsy (t : String) (h : falsyParse (extract_json_from_text t) = true) :
    parsedOf t = degenerateDict t := by
  unfold parsedOf
  cases hv : extract_json_from_text t
  case dict d =>
    rw [hv] at h
    unfold falsyParse at h
    rw [Bool.not_eq_true'] at h
    show (if (d.any fun kv => pyTruthy kv.2) = true then d else degenerateDict t) = degenerateDict t
    rw [if_neg (by simp [h])]
  all_goals rfl

set_option maxHeartbeats 1000000 in
theorem planInit_degenerate (t : String) :
    planInit (degenerateDict t) = degenerateDict t := by
  have h1 : planInit (degenerateDict t) =
      [("company_overview", PyVal.str (pyStrip (pyStrip t))),
       ("key_findings", PyVal.str ("")),
       ("pain_points", PyVal.str ("")),
       ("opportunities", PyVal.str ("")),
       ("competitors", PyVal.str ("")),
       ("recommended_strategy", PyVal.str (""))] := rfl
  rw [h1, pyStrip_idem]
  rfl

theorem isStrV_exists (v : PyVal) (h : isStrV v = true) : ∃ s, v = .str s := by
  cases v <;> simp [isStrV] at h ⊢

theorem ensure_val (client : GenaiClient) (plan : PyDict) (rd cn : String) (plan2 : PyDict)
    (he : ensure_long_sections client plan rd cn = .ok plan2) (k : String) (s : String)
    (hg : dictGet? plan k = some (.str s)) :
    ∃ s', dictGet? plan2 k = some (.str s') ∧ s.length ≤ s'.length ∧
      (s' = s ∨ ∃ v, s' = pyStrip v) := by
  rcases ensure_ok_cases client plan rd cn plan2 he with rfl | ⟨t2, _, rfl⟩
  · exact ⟨s, hg, le_refl _, Or.inl rfl⟩
  · obtain ⟨s', h', hle, hd⟩ := mergeFold_at (extract_json_from_text t2) (keysToExpand plan) plan k s hg
    refine ⟨s', h', hle, ?_⟩
    rcases hd with rfl | ⟨v, _, _, _, rfl⟩
    · exact Or.inl rfl
    · exact Or.inr ⟨v, rfl⟩

theorem ensure_keys (client : GenaiClient) (plan : PyDict) (rd cn : String) (plan2 : PyDict)
    (he : ensure_long_sections client plan rd cn = .ok plan2)
    (hall : ∀ k ∈ keysToExpand plan, k ∈ plan.map Prod.fst) :
    plan2.map Prod.fst = plan.map Prod.fst := by
  rcases ensure_ok_cases client plan rd cn plan2 he with rfl | ⟨t2, _, rfl⟩
  · rfl
  · exact mergeFold_keys (extract_json_from_text t2) (keysToExpand plan) plan hall

end ResearchAgent

namespace ResearchAgent

/-! ## The claims -/

/-- C3: for every prompt, if the primary completion call raises with
message `e` and the fallback call raises with message `e2`, then
`_call_gemini` raises exactly one fatal error whose message contains both
`e` and `e2`, and does not return a value. -/
theorem claim_C3 (client : GenaiClient) (prompt : String) (e e2 : String)
    (h1 : client.generate_content prompt = .error e)
    (h2 : client.generate prompt = .error e2) :
    call_gemini client prompt = .error ("Gemini invocation failed: " ++ e ++ " / " ++ e2) ∧
    (∃ a b, "Gemini invocation failed: " ++ e ++ " / " ++ e2 = a ++ e ++ b) ∧
    (∃ a b, "Gemini invocation failed: " ++ e ++ " / " ++ e2 = a ++ e2 ++ b) ∧
    (∀ s, call_gemini client prompt ≠ .ok s) := by
  have hmain : call_gemini client prompt
      = .error ("Gemini invocation failed: " ++ e ++ " / " ++ e2) := by
    unfold call_gemini
    simp only [h1, h2]
  refine ⟨hmain, ?_, ?_, ?_⟩
  · exact ⟨"Gemini invocation failed: ", " / " ++ e2, by
      simp [String.append_assoc]⟩
  · exact ⟨"Gemini invocation failed: " ++ e ++ " / ", "", by
      simp [String.append_assoc]⟩
  · intro s hs
    rw [hmain] at hs
    exact absurd hs (by simp)

/-- C3 witness: a client whose both paths raise produces the single
combined fatal error. -/
theorem claim_C3_witness :
    call_gemini clientRaise ("p") = .error ("Gemini invocation failed: e1 / e2") :=
  (claim_C3 clientRaise ("p") "e1" "e2" rfl rfl).1

/-- C9: if the external search call raises, `search_company` returns the
empty evidence bundle (empty text, no sources) instead of propagating. -/
theorem claim_C9 (tavily : String → Nat → Except String PyVal) (company_name : String)
    (top_k : Nat) (e : String)
    (h : tavily (tavilyQueryFor company_name) top_k = .error e) :
    search_company tavily company_name top_k = .ok ("", []) := by
  unfold search_company
  simp only [h]

/-- C9 witness: a raising search provider yields the empty bundle. -/
theorem claim_C9_witness :
    search_company (fun _ _ => .error ("boom")) ("A") 8 = .ok ("", []) :=
  claim_C9 (fun _ _ => .error ("boom")) "A" 8 ("boom") rfl

/-- C5: every returned plan carries
`confidence_estimate = str(min(95, 20 + 10 * n)) ++ "%"` for its `n`
attached sources; `0 ↦ "20%"`, `5 ↦ "70%"`, `10 ↦ "95%"` (capped), and
the numeric value is monotone in `n`. -/
theorem claim_C5 (client : GenaiClient) (rd : String) (srcs : List String) (cn : String)
    (p : PyDict) (h : generate_account_plan client rd srcs cn = .ok p) :
    dictGet? p ("confidence_estimate") = some (.str (confidenceEstimate srcs.length)) ∧
    confidenceEstimate srcs.length = toString (min 95 (20 + 10 * srcs.length)) ++ "%" ∧
    confidenceEstimate 0 = "20%" ∧
    confidenceEstimate 5 = "70%" ∧
    confidenceEstimate 10 = "95%" ∧
    (∀ m n : Nat, m ≤ n → confidenceNum m ≤ confidenceNum n) := by
  obtain ⟨t, plan2, hc, he, hp⟩ := gap_ok_cases client rd srcs cn p h
  refine ⟨?_, rfl, rfl, rfl, rfl, ?_⟩
  · rw [hp]
    exact dictGet?_insert_self _ _ _
  · intro m n hmn
    unfold confidenceNum
    omega

/-- C5 witness: a concrete run with no sources reports `20%`. -/
theorem claim_C5_witness :
    dictGet? (degenerateFinal ("hi") []) ("confidence_estimate")
      = some (.str (confidenceEstimate 0)) :=
  (claim_C5 clientPlain ("") [] "A" (degenerateFinal ("hi") []) rfl).1

/-- C7: `_extract_json_from_text` parses the greedy first-brace-to-last-
brace span strictly, repairs trailing commas and retries exactly once on
failure, returns the empty mapping when no span exists or the retry also
fails, a trailing-comma variant parses to the same mapping as the clean
text, and the greedy (not narrowest) span makes two adjacent objects
unparsable. -/
theorem claim_C7 :
    (∀ text : String, jsonSpan? text = Option.none →
      extract_json_from_text text = .dict []) ∧
    (∀ (text s : String) (v : PyVal), jsonSpan? text = some s → jsonLoads s = some v →
      extract_json_from_text text = v) ∧
    (∀ text s : String, jsonSpan? text = some s → jsonLoads s = Option.none →
      jsonLoads (reSubCommaClose ']' (reSubCommaClose '}' s)) = Option.none →
      extract_json_from_text text = .dict []) ∧
    (extract_json_from_text ("x \x7b\"a\": 1,\x7d y")
        = extract_json_from_text ("x \x7b\"a\": 1\x7d y") ∧
      extract_json_from_text ("x \x7b\"a\": 1\x7d y") = .dict [("a", PyVal.int 1)]) ∧
    (extract_json_from_text ("\x7b\"a\": 1\x7d \x7b\"b\": 2\x7d") = .dict []) := by
  have hdirty : extract_json_from_text ("x \x7b\"a\": 1,\x7d y") = .dict [("a", PyVal.int 1)] := by
    rfl
  have hclean : extract_json_from_text ("x \x7b\"a\": 1\x7d y") = .dict [("a", PyVal.int 1)] := by
    rfl
  refine ⟨?_, ?_, ?_, ⟨hdirty.trans hclean.symm, hclean⟩, by rfl⟩
  · intro text h
    unfold extract_json_from_text
    by_cases ht : text = ""
    · rw [if_pos ht]
    · rw [if_neg ht]
      simp only [h]
  · intro text s v h1 h2
    unfold extract_json_from_text
    by_cases ht : text = ""
    · subst ht
      have : jsonSpan? ("") = Option.none := rfl
      rw [this] at h1
      exact absurd h1 (by simp)
    · rw [if_neg ht]
      simp only [h1, h2]
  · intro text s h1 h2 h3
    unfold extract_json_from_text
    by_cases ht : text = ""
    · subst ht
      have : jsonSpan? ("") = Option.none := rfl
      rw [this] at h1
      exact absurd h1 (by simp)
    · rw [if_neg ht]
      simp only [h1, h2, h3]

/-- C7 witness: text with no braces gives the empty mapping. -/
theorem claim_C7_witness : extract_json_from_text ("abc") = .dict [] :=
  claim_C7.1 ("abc") rfl

/-- C1: whenever `generate_account_plan` returns, the returned mapping's
key sequence is exactly the six required template keys followed by
`sources` and `confidence_estimate`, and every required key holds a
string. -/
theorem claim_C1 (client : GenaiClient) (rd : String) (srcs : List String) (cn : String)
    (p : PyDict) (h : generate_account_plan client rd srcs cn = .ok p) :
    p.map Prod.fst = templateKeys ++ [("sources" : String), ("confidence_estimate" : String)] ∧
    (∀ k, k ∈ templateKeys → ∃ s, dictGet? p k = some (.str s)) := by
  obtain ⟨t, plan2, hc, he, hp⟩ := gap_ok_cases client rd srcs cn p h
  have hkeys2 : plan2.map Prod.fst = templateKeys := by
    have hkk := ensure_keys client (planInit (parsedOf t)) rd cn plan2 he (fun k hk => by
      rw [planInit_keys]
      exact List.mem_of_mem_filter hk)
    rw [hkk, planInit_keys]
  have hsrc_not : ¬ ("sources" : String) ∈ plan2.map Prod.fst := by
    rw [hkeys2]
    decide
  have hkeys3 : (dictInsert plan2 ("sources") (.list (srcs.map PyVal.str))).map Prod.fst
      = templateKeys ++ [("sources" : String)] := by
    rw [dictInsert_keys_new _ _ _ hsrc_not, hkeys2]
  have hconf_not : ¬ ("confidence_estimate" : String)
      ∈ (dictInsert plan2 ("sources") (.list (srcs.map PyVal.str))).map Prod.fst := by
    rw [hkeys3]
    decide
  constructor
  · rw [hp, dictInsert_keys_new _ _ _ hconf_not, hkeys3]
    simp
  · intro k hk
    have hkneq : k ≠ "sources" ∧ k ≠ "confidence_estimate" := by
      fin_cases hk <;> exact ⟨by decide, by decide⟩
    obtain ⟨s', h', _, _⟩ := ensure_val client (planInit (parsedOf t)) rd cn plan2 he k
      (enforceVal (parsedOf t) k) (planInit_get (parsedOf t) k hk)
    refine ⟨s', ?_⟩
    rw [hp, dictGet?_insert_ne _ _ _ _ hkneq.2, dictGet?_insert_ne _ _ _ _ hkneq.1]
    exact h'

/-- C1 witness: a concrete run yields exactly the eight keys in order. -/
theorem claim_C1_witness :
    (degenerateFinal ("hi") []).map Prod.fst
      = templateKeys ++ [("sources" : String), ("confidence_estimate" : String)] :=
  (claim_C1 clientPlain ("") [] "A" (degenerateFinal ("hi") []) rfl).1

/-- C10: whenever `generate_account_plan` returns, every required key's
value is a string with no leading or trailing whitespace (it is a fixed
point of `strip`): schema enforcement stores `str(value).strip()` and the
expansion merge stores the stripped candidate. -/
theorem claim_C10 (client : GenaiClient) (rd : String) (srcs : List String) (cn : String)
    (p : PyDict) (h : generate_account_plan client rd srcs cn = .ok p) :
    ∀ k, k ∈ templateKeys → ∃ s, dictGet? p k = some (.str s) ∧ pyStrip s = s := by
  obtain ⟨t, plan2, hc, he, hp⟩ := gap_ok_cases client rd srcs cn p h
  intro k hk
  have hkneq : k ≠ "sources" ∧ k ≠ "confidence_estimate" := by
    fin_cases hk <;> exact ⟨by decide, by decide⟩
  obtain ⟨s', h', _, hd⟩ := ensure_val client (planInit (parsedOf t)) rd cn plan2 he k
    (enforceVal (parsedOf t) k) (planInit_get (parsedOf t) k hk)
  refine ⟨s', ?_, ?_⟩
  · rw [hp, dictGet?_insert_ne _ _ _ _ hkneq.2, dictGet?_insert_ne _ _ _ _ hkneq.1]
    exact h'
  · rcases hd with rfl | ⟨v, rfl⟩
    · exact enforceVal_stripped (parsedOf t) k
    · exact pyStrip_idem v

/-- C10 witness: the overview of a concrete run is strip-stable. -/
theorem claim_C10_witness :
    ∃ s, dictGet? (degenerateFinal ("hi") []) ("company_overview") = some (.str s) ∧
      pyStrip s = s :=
  claim_C10 clientPlain ("") [] "A" (degenerateFinal ("hi") []) rfl ("company_overview") (by decide)

/-- C6: the expansion merge replaces a key's value only with a non-empty
string candidate whose stripped length strictly exceeds the current
length, so no merge ever shortens a value ( `_ensure_long_sections` as a
whole never shortens either), and an existing 50-character value survives
a 40-character candidate. -/
theorem claim_C6 :
    (∀ (e : PyVal) (ks : List String) (plan : PyDict) (k s : String),
      dictGet? plan k = some (.str s) →
      ∃ s', dictGet? (ks.foldl (mergeStep e) plan) k = some (.str s') ∧
        s.length ≤ s'.length ∧
        (s' = s ∨ ∃ v, pvGet? e k = some (.str v) ∧ v ≠ "" ∧
          s.length < (pyStrip v).length ∧ s' = pyStrip v)) ∧
    (∀ (client : GenaiClient) (plan : PyDict) (rd cn : String) (plan2 : PyDict) (k s : String),
      ensure_long_sections client plan rd cn = .ok plan2 →
      dictGet? plan k = some (.str s) →
      ∃ s', dictGet? plan2 k = some (.str s') ∧ s.length ≤ s'.length) ∧
    (mergeStep (PyVal.dict [("company_overview", PyVal.str (String.mk (List.replicate 40 'b')))])
        [("company_overview", PyVal.str (String.mk (List.replicate 50 'a')))]
        ("company_overview")
      = [("company_overview", PyVal.str (String.mk (List.replicate 50 'a')))]) := by
  refine ⟨fun e ks plan k s hg => mergeFold_at e ks plan k s hg, ?_, by rfl⟩
  intro client plan rd cn plan2 k s he hg
  obtain ⟨s', h', hle, _⟩ := ensure_val client plan rd cn plan2 he k s hg
  exact ⟨s', h', hle⟩

/-- C6 witness: a concrete expansion round never shortens a section. -/
theorem claim_C6_witness :
    ∃ s', dictGet? planEmpty ("company_overview") = some (.str s') ∧
      ("" : String).length ≤ s'.length :=
  claim_C6.2.1 clientPlain planEmpty ("") "A" planEmpty ("company_overview") "" (by rfl) rfl

/-- C2 counterexample: with both completion paths raising and a plan
with short sections, `_ensure_long_sections` raises (there is no
`try`/`except` around its `_call_gemini` call), instead of returning the
plan unchanged as the claim asserts. -/
theorem claim_C2_counterexample :
    ensure_long_sections clientRaise planEmpty ("") ("A")
      = .error ("Gemini invocation failed: e1 / e2") := rfl

/-- C2 (amended): with at least one short section, a parse failure of
the expansion response is swallowed and the plan is returned with the
values it already had, but a transport failure where both
completion-service calls raise propagates out of `_ensure_long_sections`
as the combined fatal error. -/
theorem claim_C2 (client : GenaiClient) (plan : PyDict) (rd cn : String)
    (hshort : ¬ (keysToExpand plan).isEmpty = true) :
    (∀ t, call_gemini client (expandPromptOf plan rd cn) = .ok t →
      extract_json_from_text t = .dict [] →
      ensure_long_sections client plan rd cn = .ok plan) ∧
    (∀ e, call_gemini client (expandPromptOf plan rd cn) = .error e →
      ensure_long_sections client plan rd cn = .error e) := by
  constructor
  · intro t hok hext
    unfold ensure_long_sections
    rw [if_neg hshort]
    simp only [hok, hext]
    rw [mergeFold_falsy (PyVal.dict []) (keysToExpand plan) plan rfl]
  · exact fun e herr => ensure_error_of_call_error client plan rd cn e hshort herr

/-- C2 witness: the two amended behaviours at concrete inputs. -/
theorem claim_C2_witness :
    ensure_long_sections clientPlain planEmpty ("") ("A") = .ok planEmpty ∧
    ensure_long_sections clientRaise planEmpty ("") ("A")
      = .error ("Gemini invocation failed: e1 / e2") :=
  ⟨(claim_C2 clientPlain planEmpty ("") "A" (by decide)).1 ("hi") rfl rfl,
   (claim_C2 clientRaise planEmpty ("") "A" (by decide)).2
     ("Gemini invocation failed: e1 / e2") rfl⟩

/-- C4: when every completion call succeeds but yields text whose parsed
object is empty, not a mapping, or all-falsy, `generate_account_plan`
returns (no raise) the degenerate plan: raw stripped synthesis text as
`company_overview`, every other required key empty, all eight keys
present. -/
theorem claim_C4 (client : GenaiClient) (rd : String) (srcs : List String) (cn : String)
    (hall : ∀ prompt, ∃ t, call_gemini client prompt = .ok t ∧
      falsyParse (extract_json_from_text t) = true) :
    (∀ t0, call_gemini client (synthPrompt rd cn) = .ok t0 →
      generate_account_plan client rd srcs cn = .ok (degenerateFinal t0 srcs)) ∧
    (∀ (t : String) (s2 : List String),
      (degenerateFinal t s2).map Prod.fst
        = templateKeys ++ [("sources" : String), ("confidence_estimate" : String)]) ∧
    (∀ (t : String) (s2 : List String) (k : String), k ∈ templateKeys →
      ∃ s, dictGet? (degenerateFinal t s2) k = some (.str s)) ∧
    (∀ (t : String) (s2 : List String) (k : String), k ∈ templateKeys →
      k ≠ "company_overview" → dictGet? (degenerateFinal t s2) k = some (.str (""))) ∧
    (∀ (t : String) (s2 : List String),
      dictGet? (degenerateFinal t s2) ("company_overview") = some (.str (pyStrip t))) := by
  refine ⟨?_, fun t s2 => rfl, ?_, ?_, fun t s2 => rfl⟩
  · intro t0 h0
    obtain ⟨t, ht, hf⟩ := hall (synthPrompt rd cn)
    rw [h0] at ht
    have htt : t0 = t := Except.ok.inj ht
    subst htt
    unfold generate_account_plan
    simp only [h0]
    rw [parsedOf_falsy t0 hf, planInit_degenerate]
    have hens : ensure_long_sections client (degenerateDict t0) rd cn
        = .ok (degenerateDict t0) := by
      unfold ensure_long_sections
      by_cases hemp : (keysToExpand (degenerateDict t0)).isEmpty = true
      · rw [if_pos hemp]
      · rw [if_neg hemp]
        obtain ⟨t1, h1, hf1⟩ := hall (expandPromptOf (degenerateDict t0) rd cn)
        simp only [h1]
        rw [mergeFold_falsy (extract_json_from_text t1) _ _ hf1]
    simp only [hens]
    rfl
  · intro t s2 k hk
    fin_cases hk <;> exact ⟨_, rfl⟩
  · intro t s2 k hk hne
    fin_cases hk
    · exact absurd rfl hne
    all_goals rfl

/-- C4 witness: an unparsable completion text produces the degenerate
plan at a concrete input. -/
theorem claim_C4_witness :
    generate_account_plan clientPlain ("") [] ("A") = .ok (degenerateFinal ("hi") []) :=
  (claim_C4 clientPlain ("") [] "A" (fun _ => ⟨"hi", rfl, rfl⟩)).1 ("hi") rfl

/-- C8 counterexample: a response with neither a text attribute nor an
output attribute (a total structural mismatch) makes the extraction
return the stringified response `x`, not the empty string, and a truthy
non-string text attribute makes it raise. -/
theorem claim_C8_counterexample :
    extractText ⟨Option.none, Option.none, "x"⟩ = .ok ("x") ∧
    ((("x" : String) == ("" : String)) = false) ∧
    extractText ⟨some (PyVal.int 1), Option.none, ""⟩
      = .error ("TypeError: text output is not a string") :=
  ⟨rfl, rfl, rfl⟩

/-- C8 (amended): extraction returns a string whenever the selected
text value is a string (raising only on a truthy non-string value); a
response with an output attribute whose first element is neither a
mapping nor a string yields the empty string; a response with neither a
truthy text attribute nor an output attribute yields the stripped
stringification of the whole response. -/
theorem claim_C8 :
    (∀ resp : Resp,
      (pyTruthy (respTextOutput resp) = true → isStrV (respTextOutput resp) = true) →
      ∃ s, extractText resp = .ok s) ∧
    (∀ (resp : Resp) (out : PyVal), txtTruthy resp = false → resp.outputAttr = some out →
      isDictV (outFirst out) = false → isStrV (outFirst out) = false →
      extractText resp = .ok ("")) ∧
    (∀ resp : Resp, txtTruthy resp = false → resp.outputAttr = Option.none →
      extractText resp = .ok (pyStrip resp.strRepr)) := by
  have hbase : ∀ resp : Resp, txtTruthy resp = false →
      respTextOutput resp = respOutputOrStr resp := by
    intro resp h
    unfold respTextOutput
    unfold txtTruthy at h
    cases hta : resp.textAttr with
    | none => rfl
    | some t =>
      rw [hta] at h
      have h2 : pyTruthy t = false := h
      show (if pyTruthy t = true then t else respOutputOrStr resp) = respOutputOrStr resp
      rw [if_neg (by simp [h2])]
  refine ⟨?_, ?_, ?_⟩
  · intro resp hstr
    by_cases ht : pyTruthy (respTextOutput resp) = true
    · obtain ⟨s, hs⟩ := isStrV_exists _ (hstr ht)
      refine ⟨pyStrip s, ?_⟩
      unfold extractText
      rw [hs] at ht ⊢
      rw [if_pos ht]
    · refine ⟨"", ?_⟩
      unfold extractText
      rw [if_neg ht]
  · intro resp out h1 h2 hd hs
    have hb := hbase resp h1
    have hout : respOutputOrStr resp = outputBranchVal out := by
      unfold respOutputOrStr
      rw [h2]
    have hval : outputBranchVal out = .str ("") := by
      unfold outputBranchVal
      cases hf : outFirst out
      case dict d =>
        rw [hf] at hd
        simp [isDictV] at hd
      case str s =>
        rw [hf] at hs
        simp [isStrV] at hs
      all_goals rfl
    unfold extractText
    rw [hb, hout, hval]
    rfl
  · intro resp h1 h2
    have hb := hbase resp h1
    have hout : respOutputOrStr resp = .str resp.strRepr := by
      unfold respOutputOrStr
      rw [h2]
    unfold extractText
    rw [hb, hout]
    by_cases hs : resp.strRepr = ""
    · rw [hs]
      rfl
    · rw [if_pos (show pyTruthy (PyVal.str resp.strRepr) = true by simp [pyTruthy, hs])]

/-- C8 witness: the three amended behaviours at concrete responses. -/
theorem claim_C8_witness :
    (∃ s, extractText (respOf ("hello")) = .ok s) ∧
    extractText ⟨Option.none, some (PyVal.int 7), "z"⟩ = .ok ("") ∧
    extractText ⟨Option.none, Option.none, (" y ")⟩ = .ok (pyStrip (" y ")) :=
  ⟨claim_C8.1 (respOf ("hello")) (fun _ => rfl),
   claim_C8.2.1 ⟨Option.none, some (PyVal.int 7), "z"⟩ (PyVal.int 7) rfl rfl rfl rfl,
   claim_C8.2.2 ⟨Option.none, Option.none, (" y ")⟩ rfl rfl⟩

end ResearchAgent
